import Mathlib

/-!
Verification development for the rising data-loading and transform layer.

The definitions below are a shallow embedding of the code in
src/rising/loading/dataset.py, src/rising/transforms/intensity.py and
(modelled from the specification, where noted) the transform-composition
module.  Python values are embedded in an untyped universe PyVal, Python
str.lower and sorted are modelled by explicit character-list recursion so
that every definition evaluates inside the kernel, and fallible Python
code (raise TypeError / KeyError) is embedded with Except / Option.
-/

/-- The untyped universe of Python values used by the dataset code: an
opaque atom or a Python list. -/
inductive PyVal where
  | atom : Nat → PyVal
  | list : List PyVal → PyVal

/-- Model of Python str.lower (character-wise lowercasing). -/
def pyLower (s : String) : String := ⟨s.data.map Char.toLower⟩

/-- Lexicographic comparison of character lists, the order Python uses to
sort strings. -/
def charListLe : List Char → List Char → Bool
  | [], _ => true
  | _ :: _, [] => false
  | a :: as, b :: bs =>
    if a < b then true
    else if b < a then false
    else charListLe as bs

/-- Model of Python string comparison a <= b. -/
def pyStrLe (a b : String) : Bool := charListLe a.data b.data

/-- Stable insertion of a string into a list, auxiliary for pySorted. -/
def insertSorted (a : String) : List String → List String
  | [] => [a]
  | b :: bs => if pyStrLe a b then a :: b :: bs else b :: insertSorted a bs

/-- Model of the Python builtin sorted on a list of strings (a stable
sort by lexicographic order). -/
def pySorted (l : List String) : List String := l.foldr insertSorted []

/-- Decidable check that a list of strings is in ascending lexicographic
order (the property the spec asserts of stored sample locations). -/
def pyIsSorted : List String → Bool
  | [] => true
  | [_] => true
  | a :: b :: rest => pyStrLe a b && pyIsSorted (b :: rest)

/-- CacheDataset._add_item (dataset.py lines 201-224): lowercases the mode,
appends the item for mode append, flattens it for mode extend (Python
list.extend on a non-iterable raises TypeError), and raises TypeError for
any other mode. -/
def CacheDataset.add_item (data : List PyVal) (item : PyVal) (mode : String) :
    Except String (List PyVal) :=
  let m := pyLower mode
  if m = "append" then .ok (data ++ [item])
  else if m = "extend" then
    match item with
    | .list xs => .ok (data ++ xs)
    | .atom _ => .error "TypeError: object is not iterable"
  else .error ("Unknown mode detected: " ++ mode ++ " not supported.")

/-- CacheDataset._make_dataset (dataset.py lines 158-199), for the branch
where the path argument is already a list (the directory branch enumerates
the filesystem and is outside the embedding): sorts the paths, maps the
loader over them (both the worker pool and the sequential map preserve
input order), and folds _add_item over the loaded samples.  load_fn stands
for the loader with its keyword arguments already applied. -/
def CacheDataset.make_dataset (load_fn : String → PyVal) (path : List String)
    (mode : String) : Except String (List PyVal) :=
  let sortedPath := pySorted path
  let loaded := sortedPath.map load_fn
  loaded.foldlM (fun data sample => CacheDataset.add_item data sample mode) []

/-- LazyDataset._make_dataset (dataset.py lines 277-298), list branch: the
source calls sorted(path) on its own line and discards the result, so the
incoming list is returned unchanged. -/
def LazyDataset.make_dataset (path : List String) : List String :=
  let _sorted := pySorted path
  path

/-- A LazyDataset (dataset.py lines 256-329): stored sample locations plus
the loader (with its keyword arguments already applied).  Locations and
samples live in the common PyVal universe, as in untyped Python. -/
structure LazyDataset where
  load_fn : PyVal → PyVal
  data : List PyVal

/-- LazyDataset.__getitem__ (dataset.py lines 300-318): apply the loader to
the stored location.  Valid indices are assumed, as in the spec; getD makes
the lookup total. -/
def LazyDataset.getitem (d : LazyDataset) (i : Nat) : PyVal :=
  d.load_fn (d.data.getD i (.atom 0))

/-- The SubsetDataset produced from a LazyDataset parent: its data field
holds the eagerly extracted samples and old_getitem is
LazyDataset.__getitem__, which reads the load_fn attribute copied over
from the parent. -/
structure SubsetOfLazy where
  load_fn : PyVal → PyVal
  data : List PyVal

/-- Dataset.get_subset (dataset.py lines 22-49) applied to a LazyDataset:
subset_data is built eagerly via the parent item access, and the parent
class __getitem__ is stored as old_getitem together with the non-data
attributes (here load_fn). -/
def LazyDataset.get_subset (d : LazyDataset) (indices : List Nat) : SubsetOfLazy :=
  { load_fn := d.load_fn, data := indices.map d.getitem }

/-- SubsetDataset.__getitem__ (dataset.py lines 78-92) with old_getitem =
LazyDataset.__getitem__: the parent item access runs on the subset, so the
loader is applied to the stored (already loaded) entry. -/
def SubsetOfLazy.getitem (s : SubsetOfLazy) (k : Nat) : PyVal :=
  s.load_fn (s.data.getD k (.atom 0))

/-- Dunder test used by Dataset.get_subset (dataset.py line 40):
key.startswith("__") and key.endswith("__"). -/
def isDunder (k : String) : Bool :=
  decide (k.data.take 2 = ['_', '_']) && decide (k.data.reverse.take 2 = ['_', '_'])

/-- The keyword arguments Dataset.get_subset (dataset.py lines 37-44)
extracts from vars(self): every attribute whose name is not dunder and
not "data".  Attribute values are opaque. -/
def get_subset_kwargs {α : Type} (attrs : List (String × α)) : List (String × α) :=
  attrs.filter (fun kv => !(isDunder kv.1) && kv.1 != "data")

/-- Python setattr on an attribute dictionary: later writes win. -/
def setAttr {α : Type} (m : String → Option α) (k : String) (v : α) :
    String → Option α :=
  fun q => if q = k then some v else m q

/-- The attribute dictionary of a SubsetDataset after __init__ (dataset.py
lines 58-76): data and _old_getitem are set first, then every extracted
keyword argument is set in order. -/
def SubsetDataset.attrs {α : Type} (dataVal oldGetitem : α)
    (kwargs : List (String × α)) : String → Option α :=
  kwargs.foldl (fun m kv => setAttr m kv.1 kv.2)
    (setAttr (setAttr (fun _ => none) "data" dataVal) "_old_getitem" oldGetitem)

/-- A dataset as seen by the IDManager mixin (dataset.py lines 332-421):
the enumerated samples (each sample a Python dict, embedded as a total
string-keyed map as the id key is assumed present) and the configured
id_key. -/
structure IDDataset where
  id_key : String
  samples : List (String → String)

/-- The dict comprehension in IDManager.cache_ids (dataset.py lines
353-359), carrying the running index and the dictionary built so far:
dict writes for duplicate ids overwrite earlier ones. -/
def IDManager.cacheAux (key : String) :
    Nat → List (String → String) → (String → Option Nat) → String → Option Nat
  | _, [], m => m
  | n, s :: rest, m =>
    IDManager.cacheAux key (n + 1) rest (fun q => if q = s key then some n else m q)

/-- IDManager.cache_ids: the id-to-index dictionary built by one scan of
the dataset. -/
def IDManager.cache_ids (d : IDDataset) : String → Option Nat :=
  IDManager.cacheAux d.id_key 0 d.samples (fun _ => none)

/-- The scan loop of IDManager._find_index_iterative (dataset.py lines
361-384): the first matching index, KeyError (none) when the loop
finishes. -/
def IDManager.findAux (key sid : String) : Nat → List (String → String) → Option Nat
  | _, [] => none
  | n, s :: rest => if s key = sid then some n else IDManager.findAux key sid (n + 1) rest

/-- IDManager._find_index_iterative. -/
def IDManager.find_index_iterative (d : IDDataset) (sid : String) : Option Nat :=
  IDManager.findAux d.id_key sid 0 d.samples

/-- IDManager.get_index_by_id (dataset.py lines 403-421): dictionary lookup
when _cached_ids is not None (a missing key is Python KeyError, i.e. none),
otherwise the linear scan. -/
def IDManager.get_index_by_id (d : IDDataset) (cached : Option (String → Option Nat))
    (sid : String) : Option Nat :=
  match cached with
  | some m => m sid
  | none => IDManager.find_index_iterative d sid

/-- The per-channel loop of RandomValuePerChannel.forward (intensity.py
lines 225-235): for each channel a fresh value is drawn from the random
source (advancing its state) and the augmentation is applied to that
channel with the drawn value. -/
def RandomValuePerChannel.perChannel {α β σ : Type} (aug : α → β → α)
    (sampler : σ → β × σ) : List α → σ → List α × σ
  | [], rng => ([], rng)
  | c :: cs, rng =>
    let v := (sampler rng).1
    let rng1 := (sampler rng).2
    let rest := RandomValuePerChannel.perChannel aug sampler cs rng1
    (aug c v :: rest.1, rest.2)

/-- The key loop of RandomValuePerChannel.forward (intensity.py lines
226-235): seed is the random-source state captured once before the loop;
before each key the state is reset to seed, the per-channel loop runs, and
the batch entry for that key is overwritten with the result. -/
def RandomValuePerChannel.forwardAux {α β σ : Type} (aug : α → β → α)
    (sampler : σ → β × σ) (seed : σ) :
    List String → (String → List α) → σ → (String → List α) × σ
  | [], data, rng => (data, rng)
  | k :: ks, data, _rng =>
    let r := RandomValuePerChannel.perChannel aug sampler (data k) seed
    RandomValuePerChannel.forwardAux aug sampler seed ks
      (fun q => if q = k then r.1 else data q) r.2

/-- RandomValuePerChannel.forward with per_channel=True (intensity.py lines
215-240).  The random-value draw rand_value = self.random_sampler and the
state capture and restore are modelled from the spec (section 4.5:
randomized parameters are drawn fresh per sub-call from the shared random
source) as an explicit state-passing sampler; the control flow is the
source's. -/
def RandomValuePerChannel.forward {α β σ : Type} (aug : α → β → α)
    (sampler : σ → β × σ) (keys : List String) (data : String → List α)
    (rng : σ) : (String → List α) × σ :=
  RandomValuePerChannel.forwardAux aug sampler rng keys data rng

/-- The first n values produced by the sampler from a given random-source
state. -/
def RandomValuePerChannel.sampleSeq {β σ : Type} (sampler : σ → β × σ) :
    Nat → σ → List β
  | 0, _ => []
  | n + 1, rng =>
    (sampler rng).1 :: RandomValuePerChannel.sampleSeq sampler n (sampler rng).2

/-- Modelled from the spec: DropoutCompose (the module
rising/transforms/compose.py is not among the sources; only its test is).
Spec section 4.7: each stage's inclusion in a call is gated by an
independent Bernoulli trial parameterized by a per-stage
inclusion-probability, and the realized transform_order after a call is
exactly the subset of stage indices selected by the trials, in identity
order when shuffling is off.  A Bernoulli trial with inclusion probability
p i is modelled as drawing a uniform value u i in the interval [0,1) and
succeeding iff u i < p i. -/
def DropoutCompose.transform_order (n : Nat) (p : Nat → ℚ) (u : Nat → ℚ) : List Nat :=
  (List.range n).filter (fun i => decide (u i < p i))

/-- Evaluation lemma for add_item in mode append. -/
theorem CacheDataset.add_item_append (d : List PyVal) (it : PyVal) :
    CacheDataset.add_item d it "append" = .ok (d ++ [it]) := rfl

/-- Evaluation lemma for add_item in mode extend on an iterable item. -/
theorem CacheDataset.add_item_extend (d : List PyVal) (xs : List PyVal) :
    CacheDataset.add_item d (.list xs) "extend" = .ok (d ++ xs) := rfl

/-- Folding add_item in mode append accumulates the loaded samples in
order. -/
theorem CacheDataset.foldlM_add_item_append :
    ∀ (l acc : List PyVal),
      List.foldlM (fun d s => CacheDataset.add_item d s "append") acc l
        = .ok (acc ++ l)
  | [], acc => by show pure acc = _; simp [pure, Except.pure]
  | x :: l, acc => by
    rw [List.foldlM_cons, CacheDataset.add_item_append]
    show List.foldlM _ (acc ++ [x]) l = _
    rw [CacheDataset.foldlM_add_item_append l (acc ++ [x])]
    simp

/-- Folding add_item in mode extend over iterable items flattens them in
order. -/
theorem CacheDataset.foldlM_add_item_extend :
    ∀ (ls : List (List PyVal)) (acc : List PyVal),
      List.foldlM (fun d s => CacheDataset.add_item d s "extend") acc
          (ls.map PyVal.list)
        = .ok (acc ++ ls.flatten)
  | [], acc => by show pure acc = _; simp [pure, Except.pure]
  | xs :: ls, acc => by
    rw [List.map_cons, List.foldlM_cons, CacheDataset.add_item_extend]
    show List.foldlM _ (acc ++ xs) (ls.map PyVal.list) = _
    rw [CacheDataset.foldlM_add_item_extend ls (acc ++ xs)]
    simp

/-- Inserting one element grows the length by one. -/
theorem length_insertSorted (a : String) :
    ∀ l : List String, (insertSorted a l).length = l.length + 1
  | [] => rfl
  | b :: bs => by
    rw [insertSorted]
    split
    · rfl
    · simp [length_insertSorted a bs]

/-- The sort used by CacheDataset preserves length. -/
theorem length_pySorted (l : List String) : (pySorted l).length = l.length := by
  induction l with
  | nil => rfl
  | cons a l ih =>
    show (insertSorted a (pySorted l)).length = l.length + 1
    rw [length_insertSorted, ih]

/-- Claim C4: a CacheDataset built with mode append from n loader outputs
has length n and its i-th entry is the i-th loaded unit in sorted-path
order (the data list is exactly the loader mapped over the sorted paths);
with mode extend from loader outputs that are iterables of sizes s_1..s_n
the data list is their in-order flattening, whose length is the sum of the
sizes. -/
theorem cacheDataset_append_extend_sizes (f : String → PyVal)
    (g : String → List PyVal) (p : List String) :
    (CacheDataset.make_dataset f p "append" = .ok ((pySorted p).map f)
      ∧ ((pySorted p).map f).length = p.length)
    ∧ (CacheDataset.make_dataset (fun s => .list (g s)) p "extend"
        = .ok (((pySorted p).map g).flatten)
      ∧ (((pySorted p).map g).flatten).length
        = (((pySorted p).map g).map List.length).sum) := by
  refine ⟨⟨?_, ?_⟩, ?_, ?_⟩
  · show List.foldlM _ [] ((pySorted p).map f) = _
    rw [CacheDataset.foldlM_add_item_append]
    simp
  · rw [List.length_map, length_pySorted]
  · show List.foldlM _ [] ((pySorted p).map fun s => PyVal.list (g s)) = _
    rw [show ((pySorted p).map fun s => PyVal.list (g s))
          = ((pySorted p).map g).map PyVal.list from by rw [List.map_map]; rfl,
        CacheDataset.foldlM_add_item_extend]
    simp
  · exact List.length_flatten _

/-- Claim C5 counterexample: the mode value "APPEND" differs from both
"append" and "extend", yet CacheDataset construction succeeds with it, so
it is not true that every mode value other than these two strings raises a
TypeError. -/
theorem cacheDataset_mode_APPEND_no_error :
    CacheDataset.make_dataset (fun _ => PyVal.atom 0) ["p"] "APPEND"
        = .ok [PyVal.atom 0]
    ∧ "APPEND" ≠ "append" ∧ "APPEND" ≠ "extend" :=
  ⟨rfl, by decide, by decide⟩

/-- Claim C5 (amended): for every CacheDataset construction from a
non-empty path list whose mode lowercases to neither "append" nor
"extend", construction fails with the unknown-mode TypeError, surfaced
from _make_dataset at construction time. -/
theorem cacheDataset_unknown_mode_error (f : String → PyVal) (p : List String)
    (mode : String) (h1 : pyLower mode ≠ "append") (h2 : pyLower mode ≠ "extend")
    (hp : p ≠ []) :
    CacheDataset.make_dataset f p mode
      = .error ("Unknown mode detected: " ++ mode ++ " not supported.") := by
  have hs : pySorted p ≠ [] := by
    intro h
    apply hp
    have hl := length_pySorted p
    rw [h] at hl
    exact List.length_eq_zero.mp hl.symm
  obtain ⟨a, rest, hrw⟩ := List.exists_cons_of_ne_nil hs
  show List.foldlM _ [] ((pySorted p).map f) = _
  rw [hrw, List.map_cons, List.foldlM_cons]
  have ha : CacheDataset.add_item [] (f a) mode
      = .error ("Unknown mode detected: " ++ mode ++ " not supported.") := by
    unfold CacheDataset.add_item
    rw [if_neg h1, if_neg h2]
  rw [ha]
  rfl

/-- Claim C5 witness: with the concrete mode "foo" and a one-element path
list the amended statement applies and construction errors. -/
theorem cacheDataset_unknown_mode_error_witness :
    (pyLower "foo" ≠ "append" ∧ pyLower "foo" ≠ "extend"
      ∧ (["p"] : List String) ≠ [])
    ∧ CacheDataset.make_dataset (fun _ => PyVal.atom 0) ["p"] "foo"
        = .error ("Unknown mode detected: " ++ "foo" ++ " not supported.") :=
  ⟨⟨by decide, by decide, by decide⟩,
    cacheDataset_unknown_mode_error (fun _ => PyVal.atom 0) ["p"] "foo"
      (by decide) (by decide) (by decide)⟩

/-- Claim C10: CacheDataset matches the mode argument case-insensitively:
any mode value whose Python lower() form is "append" behaves exactly like
"append", and likewise for "extend", so no unknown-mode error is raised
for any casing of the two supported modes. -/
theorem cacheDataset_mode_case_insensitive (d : List PyVal) (it : PyVal)
    (mode : String) :
    (pyLower mode = "append" →
      CacheDataset.add_item d it mode = CacheDataset.add_item d it "append")
    ∧ (pyLower mode = "extend" →
      CacheDataset.add_item d it mode = CacheDataset.add_item d it "extend") := by
  have hae : pyLower "append" = "append" := by decide
  have hee : pyLower "extend" = "extend" := by decide
  refine ⟨fun h => ?_, fun h => ?_⟩
  · unfold CacheDataset.add_item
    rw [h, hae]
    rfl
  · unfold CacheDataset.add_item
    rw [h, hee]
    rfl

/-- Claim C10 witness: the upper-case mode "APPEND" lowercases to "append"
and _add_item treats it exactly like "append". -/
theorem cacheDataset_mode_case_insensitive_witness :
    pyLower "APPEND" = "append"
    ∧ CacheDataset.add_item [] (PyVal.atom 3) "APPEND"
        = CacheDataset.add_item [] (PyVal.atom 3) "append" :=
  ⟨by decide,
    (cacheDataset_mode_case_insensitive [] (PyVal.atom 3) "APPEND").1 (by decide)⟩

/-- Claim C1 (code-bug evaluation): for a LazyDataset parent, the subset
returned by get_subset does not satisfy subset[k] == dataset[I[k]]: the
stored subset samples are the eagerly loaded parent items, but
SubsetDataset.__getitem__ replays LazyDataset.__getitem__ on them, so the
loader is applied a second time.  With the loader v ↦ [v], location list
[atom 7] and index list [0], the parent item is [atom 7] while the subset
returns [[atom 7]]. -/
theorem lazyDataset_subset_double_loads :
    (LazyDataset.get_subset
        { load_fn := fun v => PyVal.list [v], data := [PyVal.atom 7] } [0]).getitem 0
      = PyVal.list [PyVal.list [PyVal.atom 7]]
    ∧ LazyDataset.getitem
        { load_fn := fun v => PyVal.list [v], data := [PyVal.atom 7] } 0
      = PyVal.list [PyVal.atom 7] :=
  ⟨rfl, rfl⟩

/-- Claim C2 (code-bug evaluation): LazyDataset._make_dataset discards the
result of sorted(path), so for the explicit location list ["b", "a"] the
stored data is the unsorted input, even though the sort it computes and
drops would have ordered it. -/
theorem lazyDataset_make_dataset_unsorted :
    LazyDataset.make_dataset ["b", "a"] = ["b", "a"]
    ∧ pyIsSorted (LazyDataset.make_dataset ["b", "a"]) = false
    ∧ pyIsSorted (pySorted ["b", "a"]) = true :=
  ⟨rfl, by decide, by decide⟩

/-- If no sample in the suffix carries the queried id, the dictionary
built over that suffix answers the query from the accumulator. -/
theorem IDManager.cacheAux_no_occ (key q : String) :
    ∀ (l : List (String → String)) (n : Nat) (m : String → Option Nat),
      (∀ s ∈ l, s key ≠ q) → IDManager.cacheAux key n l m q = m q := by
  intro l
  induction l with
  | nil => intro n m _; rfl
  | cons s rest ih =>
    intro n m h
    show IDManager.cacheAux key (n + 1) rest _ q = m q
    rw [ih (n + 1) _ (fun t ht => h t (List.mem_cons_of_mem _ ht))]
    exact if_neg (fun hq => h s (List.mem_cons_self _ _) hq.symm)

/-- If no sample in the suffix carries the queried id, the linear scan
over that suffix raises KeyError. -/
theorem IDManager.findAux_no_occ (key q : String) :
    ∀ (l : List (String → String)) (n : Nat),
      (∀ s ∈ l, s key ≠ q) → IDManager.findAux key q n l = none := by
  intro l
  induction l with
  | nil => intro n _; rfl
  | cons s rest ih =>
    intro n h
    show (if s key = q then some n else IDManager.findAux key q (n + 1) rest) = none
    rw [if_neg (h s (List.mem_cons_self _ _)), ih (n + 1)
      (fun t ht => h t (List.mem_cons_of_mem _ ht))]

/-- When the queried id occurs in exactly one sample, the dictionary built
by cache_ids and the linear scan agree, whatever the accumulator and the
running index. -/
theorem IDManager.cacheAux_agree_findAux (key q : String) :
    ∀ (l : List (String → String)) (n : Nat) (m : String → Option Nat),
      l.countP (fun s => decide (s key = q)) = 1 →
      IDManager.cacheAux key n l m q = IDManager.findAux key q n l := by
  intro l
  induction l with
  | nil => intro n m h; simp [List.countP_nil] at h
  | cons s rest ih =>
    intro n m h
    rw [List.countP_cons] at h
    by_cases hs : s key = q
    · have hno : ∀ t ∈ rest, t key ≠ q := by
        simp [hs] at h
        exact h
      show IDManager.cacheAux key (n + 1) rest _ q
          = (if s key = q then some n else IDManager.findAux key q (n + 1) rest)
      rw [IDManager.cacheAux_no_occ key q rest (n + 1) _ hno, if_pos hs,
        if_pos hs.symm]
    · have hrest : rest.countP (fun s => decide (s key = q)) = 1 := by
        simpa [hs] using h
      show IDManager.cacheAux key (n + 1) rest _ q
          = (if s key = q then some n else IDManager.findAux key q (n + 1) rest)
      rw [ih (n + 1) _ hrest, if_neg hs]

/-- Claim C3 counterexample: on a dataset whose two samples share the id
"a", get_index_by_id answers 1 when the id cache is enabled (the dict
comprehension keeps the last index for a duplicated id) but 0 when it is
disabled (the linear scan returns the first match), so caching on and off
do not always return the same index. -/
theorem get_index_by_id_duplicate_ids_disagree :
    IDManager.get_index_by_id ⟨"id", [fun _ => "a", fun _ => "a"]⟩
        (some (IDManager.cache_ids ⟨"id", [fun _ => "a", fun _ => "a"]⟩)) "a"
      = some 1
    ∧ IDManager.get_index_by_id ⟨"id", [fun _ => "a", fun _ => "a"]⟩ none "a"
      = some 0 :=
  ⟨by decide, by decide⟩

/-- Claim C3 (amended): on an unmodified dataset, for every id carried by
exactly one sample, get_index_by_id returns the same index whether the id
cache built at construction is consulted or the linear scan runs; with
duplicated ids the cache answers the last matching index and the scan the
first. -/
theorem get_index_by_id_cache_agreement (d : IDDataset) (sid : String)
    (h : d.samples.countP (fun s => decide (s d.id_key = sid)) = 1) :
    IDManager.get_index_by_id d (some (IDManager.cache_ids d)) sid
      = IDManager.get_index_by_id d none sid := by
  show IDManager.cache_ids d sid = IDManager.find_index_iterative d sid
  exact IDManager.cacheAux_agree_findAux d.id_key sid d.samples 0 _ h

/-- Claim C3 witness: on a one-sample dataset with id "a" both lookup paths
agree. -/
theorem get_index_by_id_cache_agreement_witness :
    (IDDataset.mk "id" [fun _ => "a"]).samples.countP
        (fun s => decide (s (IDDataset.mk "id" [fun _ => "a"]).id_key = "a")) = 1
    ∧ IDManager.get_index_by_id ⟨"id", [fun _ => "a"]⟩
        (some (IDManager.cache_ids ⟨"id", [fun _ => "a"]⟩)) "a"
      = IDManager.get_index_by_id ⟨"id", [fun _ => "a"]⟩ none "a" :=
  ⟨by decide, get_index_by_id_cache_agreement ⟨"id", [fun _ => "a"]⟩ "a" (by decide)⟩

/-- Claim C6: for an id carried by no sample, get_index_by_id fails with a
keyed-lookup error on both paths: the cached dictionary has no entry for
it (Python KeyError from the dict lookup) and the linear scan finishes
without a match (the explicit KeyError raise); neither path returns an
index. -/
theorem get_index_by_id_not_found (d : IDDataset) (sid : String)
    (h : ∀ s ∈ d.samples, s d.id_key ≠ sid) :
    IDManager.get_index_by_id d (some (IDManager.cache_ids d)) sid = none
    ∧ IDManager.get_index_by_id d none sid = none := by
  constructor
  · show IDManager.cache_ids d sid = none
    exact IDManager.cacheAux_no_occ d.id_key sid d.samples 0 _ h
  · show IDManager.find_index_iterative d sid = none
    exact IDManager.findAux_no_occ d.id_key sid d.samples 0 h

/-- Claim C6 witness: on a one-sample dataset with id "a", looking up the
absent id "b" fails on both paths. -/
theorem get_index_by_id_not_found_witness :
    (∀ s ∈ (IDDataset.mk "id" [fun _ => "a"]).samples,
      s (IDDataset.mk "id" [fun _ => "a"]).id_key ≠ "b")
    ∧ IDManager.get_index_by_id ⟨"id", [fun _ => "a"]⟩
        (some (IDManager.cache_ids ⟨"id", [fun _ => "a"]⟩)) "b" = none
    ∧ IDManager.get_index_by_id ⟨"id", [fun _ => "a"]⟩ none "b" = none :=
  ⟨by decide,
    (get_index_by_id_not_found ⟨"id", [fun _ => "a"]⟩ "b" (by decide)).1,
    (get_index_by_id_not_found ⟨"id", [fun _ => "a"]⟩ "b" (by decide)).2⟩

/-- Attribute writes for other keys do not change the answer for a key
that is not among them. -/
theorem foldl_setAttr_of_not_mem {α : Type} (k : String) :
    ∀ (l : List (String × α)) (m : String → Option α),
      k ∉ l.map Prod.fst →
      l.foldl (fun m kv => setAttr m kv.1 kv.2) m k = m k := by
  intro l
  induction l with
  | nil => intro m _; rfl
  | cons kv rest ih =>
    intro m h
    rw [List.map_cons, List.mem_cons, not_or] at h
    rw [List.foldl_cons, ih _ h.2]
    exact if_neg h.1

/-- With duplicate-free keys, writing a list of attributes in order and
then reading key k answers the first (equivalently only) binding of k. -/
theorem foldl_setAttr_lookup {α : Type} (k : String) (v : α) :
    ∀ (l : List (String × α)) (m : String → Option α),
      (l.map Prod.fst).Nodup → l.lookup k = some v →
      l.foldl (fun m kv => setAttr m kv.1 kv.2) m k = some v := by
  intro l
  induction l with
  | nil => intro m _ hl; simp [List.lookup] at hl
  | cons kv rest ih =>
    intro m hnd hl
    rw [List.map_cons, List.nodup_cons] at hnd
    rw [List.lookup] at hl
    by_cases hk : k = kv.1
    · rw [beq_iff_eq.mpr hk] at hl
      rw [List.foldl_cons,
        foldl_setAttr_of_not_mem k rest _ (by rw [hk]; exact hnd.1)]
      show (if k = kv.1 then some kv.2 else m k) = some v
      rw [if_pos hk]
      exact hl
    · rw [beq_eq_false_iff_ne.mpr hk] at hl
      rw [List.foldl_cons]
      exact ih _ hnd.2 hl

/-- A non-dunder, non-data attribute binding of the parent survives the
kwargs filter of get_subset. -/
theorem lookup_get_subset_kwargs {α : Type} (k : String) (v : α)
    (hdun : isDunder k = false) (hk : k ≠ "data") :
    ∀ l : List (String × α), l.lookup k = some v →
      (get_subset_kwargs l).lookup k = some v := by
  intro l
  induction l with
  | nil => intro hl; simp [List.lookup] at hl
  | cons kv rest ih =>
    intro hl
    rw [List.lookup] at hl
    by_cases hkk : k = kv.1
    · rw [beq_iff_eq.mpr hkk] at hl
      have hkeep : (!(isDunder kv.1) && kv.1 != "data") = true := by
        rw [← hkk]
        simp [hdun, hk]
      rw [get_subset_kwargs, List.filter_cons, if_pos hkeep, List.lookup,
        beq_iff_eq.mpr hkk]
      exact hl
    · rw [beq_eq_false_iff_ne.mpr hkk] at hl
      rw [get_subset_kwargs, List.filter_cons]
      split
      · rw [List.lookup, beq_eq_false_iff_ne.mpr hkk]
        exact ih hl
      · exact ih hl

/-- The kwargs filter keeps the parent's keys duplicate-free. -/
theorem nodup_get_subset_kwargs {α : Type} (l : List (String × α))
    (h : (l.map Prod.fst).Nodup) :
    ((get_subset_kwargs l).map Prod.fst).Nodup :=
  ((List.filter_sublist l).map Prod.fst).nodup h

/-- Claim C7 (amended): the SubsetDataset built by get_subset exposes every
parent attribute whose name is neither "data" nor dunder (both excluded by
the extraction loop), with the identical value: for a parent whose
attribute dictionary binds such a key k to v, the subset's attribute
dictionary also answers v at k.  The embedding passes values through
untouched (shared, never rebuilt), and the parent dictionary is not
modified. -/
theorem subsetDataset_exposes_parent_attrs {α : Type}
    (attrs : List (String × α)) (dataVal oldGetitem : α) (k : String) (v : α)
    (hnd : (attrs.map Prod.fst).Nodup)
    (hdun : isDunder k = false) (hk : k ≠ "data")
    (hv : attrs.lookup k = some v) :
    SubsetDataset.attrs dataVal oldGetitem (get_subset_kwargs attrs) k = some v :=
  foldl_setAttr_lookup k v _ _ (nodup_get_subset_kwargs attrs hnd)
    (lookup_get_subset_kwargs k v hdun hk attrs hv)

/-- Claim C7 witness: a parent attribute "x" bound to 3 is exposed by the
subset with the same value. -/
theorem subsetDataset_exposes_parent_attrs_witness :
    (([("x", (3 : Nat))].map Prod.fst).Nodup ∧ isDunder "x" = false
      ∧ "x" ≠ "data" ∧ List.lookup "x" [("x", (3 : Nat))] = some 3)
    ∧ SubsetDataset.attrs 0 0 (get_subset_kwargs [("x", (3 : Nat))]) "x" = some 3 :=
  ⟨⟨by decide, by decide, by decide, by decide⟩,
    subsetDataset_exposes_parent_attrs [("x", 3)] 0 0 "x" 3
      (by decide) (by decide) (by decide) (by decide)⟩

/-- Claim C7 counterexample: a parent attribute named "__a__" (dunder but
distinct from "data") is present on the parent yet absent from the subset,
because the extraction loop skips every dunder-named attribute, not only
the raw sample container. -/
theorem subsetDataset_drops_dunder_attr :
    List.lookup "__a__" [("__a__", (5 : Nat))] = some 5
    ∧ SubsetDataset.attrs 0 0 (get_subset_kwargs [("__a__", (5 : Nat))]) "__a__"
      = none :=
  ⟨by decide, by decide⟩

/-- Claim C8 counterexample: under the spec's gating contract a
DropoutCompose with a single stage and inclusion probability 0.0 records
an empty transform_order (length 0, not 1): the Bernoulli trial for the
only stage cannot succeed at probability 0, here shown with the valid
uniform draw 1/2. -/
theorem dropoutCompose_prob_zero_empty_order :
    (0 : ℚ) ≤ 1 / 2 ∧ (1 / 2 : ℚ) < 1
    ∧ (DropoutCompose.transform_order 1 (fun _ => 0) (fun _ => 1 / 2)).length
      ≠ 1 := by
  refine ⟨by norm_num, by norm_num, ?_⟩
  have h : DropoutCompose.transform_order 1 (fun _ => 0) (fun _ => 1 / 2) = [] := by
    simp [DropoutCompose.transform_order, List.filter]
    norm_num
  rw [h]
  decide

/-- Claim C8 (amended): under the spec's Bernoulli gating with
inclusion-probability semantics and any valid uniform draws in [0, 1), a
DropoutCompose call with shared probability 0.0 records a transform_order
of length 0 (no stage included, in particular not one stage for a
single-stage pipeline), and with shared probability 1.0 it records all n
stage indices, in particular length 2 for two stages. -/
theorem dropoutCompose_extreme_probability_order_lengths (n : Nat)
    (u : Nat → ℚ) (h : ∀ i, 0 ≤ u i ∧ u i < 1) :
    (DropoutCompose.transform_order n (fun _ => 0) u).length = 0
    ∧ (DropoutCompose.transform_order n (fun _ => 1) u).length = n := by
  constructor
  · have he : (List.range n).filter (fun i => decide (u i < 0)) = [] :=
      List.filter_eq_nil_iff.mpr (fun i _ => by simpa using not_lt.mpr (h i).1)
    simp [DropoutCompose.transform_order, he]
  · have ha : (List.range n).filter (fun i => decide (u i < 1)) = List.range n :=
      List.filter_eq_self.mpr (fun i _ => by simpa using (h i).2)
    simp [DropoutCompose.transform_order, ha]

/-- Claim C8 witness: with the constant uniform draw 1/2 and two stages,
probability 0.0 records no stage and probability 1.0 records both. -/
theorem dropoutCompose_extreme_probability_order_lengths_witness :
    (∀ i : Nat, (0 : ℚ) ≤ (fun _ => (1 : ℚ) / 2) i ∧ (fun _ => (1 : ℚ) / 2) i < 1)
    ∧ (DropoutCompose.transform_order 2 (fun _ => 0) (fun _ => 1 / 2)).length = 0
    ∧ (DropoutCompose.transform_order 2 (fun _ => 1) (fun _ => 1 / 2)).length = 2 :=
  ⟨fun _ => ⟨by norm_num, by norm_num⟩,
    (dropoutCompose_extreme_probability_order_lengths 2 (fun _ => 1 / 2)
      (fun _ => ⟨by norm_num, by norm_num⟩)).1,
    (dropoutCompose_extreme_probability_order_lengths 2 (fun _ => 1 / 2)
      (fun _ => ⟨by norm_num, by norm_num⟩)).2⟩

/-- The per-channel loop equals zipping the channels with the value stream
drawn from its starting random state. -/
theorem RandomValuePerChannel.perChannel_eq_zipWith {α β σ : Type}
    (aug : α → β → α) (sampler : σ → β × σ) :
    ∀ (cs : List α) (rng : σ),
      (RandomValuePerChannel.perChannel aug sampler cs rng).1
        = List.zipWith aug cs
            (RandomValuePerChannel.sampleSeq sampler cs.length rng) := by
  intro cs
  induction cs with
  | nil => intro rng; rfl
  | cons c cs ih =>
    intro rng
    show aug c (sampler rng).1
          :: (RandomValuePerChannel.perChannel aug sampler cs (sampler rng).2).1
        = _
    rw [ih (sampler rng).2]
    rfl

/-- Keys not processed by the remaining loop keep their batch entry. -/
theorem RandomValuePerChannel.forwardAux_untouched {α β σ : Type}
    (aug : α → β → α) (sampler : σ → β × σ) (seed : σ) (k : String) :
    ∀ (ks : List String) (data : String → List α) (rng : σ), k ∉ ks →
      (RandomValuePerChannel.forwardAux aug sampler seed ks data rng).1 k
        = data k := by
  intro ks
  induction ks with
  | nil => intro data rng _; rfl
  | cons k0 ks ih =>
    intro data rng h
    rw [List.mem_cons, not_or] at h
    show (RandomValuePerChannel.forwardAux aug sampler seed ks
        (fun q => if q = k0 then _ else data q) _).1 k = data k
    rw [ih _ _ h.2]
    exact if_neg h.1

/-- Every key of a duplicate-free key loop receives the per-channel result
computed from its original buffer and the captured seed. -/
theorem RandomValuePerChannel.forwardAux_per_key {α β σ : Type}
    (aug : α → β → α) (sampler : σ → β × σ) (seed : σ) :
    ∀ (ks : List String) (data : String → List α) (rng : σ), ks.Nodup →
      ∀ k ∈ ks,
        (RandomValuePerChannel.forwardAux aug sampler seed ks data rng).1 k
          = (RandomValuePerChannel.perChannel aug sampler (data k) seed).1 := by
  intro ks
  induction ks with
  | nil => intro data rng _ k hk; simp at hk
  | cons k0 ks ih =>
    intro data rng hnd k hk
    rw [List.nodup_cons] at hnd
    rcases List.mem_cons.mp hk with hk0 | hks
    · subst hk0
      show (RandomValuePerChannel.forwardAux aug sampler seed ks
          (fun q => if q = k then _ else data q) _).1 k = _
      rw [RandomValuePerChannel.forwardAux_untouched aug sampler seed k ks _ _
        hnd.1]
      simp
    · have hne : k ≠ k0 := fun he => hnd.1 (he ▸ hks)
      show (RandomValuePerChannel.forwardAux aug sampler seed ks
          (fun q => if q = k0 then _ else data q) _).1 k = _
      rw [ih _ _ hnd.2 k hks]
      simp [hne]

/-- Claim C9: in RandomValuePerChannel.forward with per_channel=True the
random state is captured once before the first key and restored before
each key, so for every batch with duplicate-free configured keys every key
is transformed with the identical stream of sampled values (the stream
drawn from the initial random state), and each key's output buffer is the
deterministic zip of that key's input channels with that stream. -/
theorem randomValuePerChannel_forward_key_deterministic {α β σ : Type}
    (aug : α → β → α) (sampler : σ → β × σ) (keys : List String)
    (data : String → List α) (rng : σ) (hnd : keys.Nodup) :
    ∀ k ∈ keys,
      (RandomValuePerChannel.forward aug sampler keys data rng).1 k
        = List.zipWith aug (data k)
            (RandomValuePerChannel.sampleSeq sampler (data k).length rng) := by
  intro k hk
  show (RandomValuePerChannel.forwardAux aug sampler rng keys data rng).1 k = _
  rw [RandomValuePerChannel.forwardAux_per_key aug sampler rng keys data rng
    hnd k hk]
  exact RandomValuePerChannel.perChannel_eq_zipWith aug sampler (data k) rng

/-- Claim C9 witness: with additive augmentation, the counter sampler
r ↦ (r, r + 1), keys ["a", "b"], constant buffers [10, 20] and initial
state 5, both keys are transformed with the draws [5, 6] from the initial
state. -/
theorem randomValuePerChannel_forward_key_deterministic_witness :
    (["a", "b"] : List String).Nodup
    ∧ ∀ k ∈ (["a", "b"] : List String),
        (RandomValuePerChannel.forward (fun c v => c + v)
            (fun r : Nat => (r, r + 1)) ["a", "b"]
            (fun _ => [(10 : Nat), 20]) 5).1 k
          = List.zipWith (fun c v => c + v) ((fun _ : String => [(10 : Nat), 20]) k)
              (RandomValuePerChannel.sampleSeq (fun r : Nat => (r, r + 1))
                ((fun _ : String => [(10 : Nat), 20]) k).length 5) :=
  ⟨by decide,
    randomValuePerChannel_forward_key_deterministic (fun c v => c + v)
      (fun r : Nat => (r, r + 1)) ["a", "b"] (fun _ => [(10 : Nat), 20]) 5
      (by decide)⟩
